import Mathlib

/-!
Verification development for the hashgraph-name-resolution-sdk core.

The definitions below are a shallow embedding of the two source files of the
repository:

* `src/src/mirrorNode.ts` — the paginated ledger reader and the reconciliation
  engine (`MirrorNode.getNFTsByAccountId`, `MirrorNode.getNftTopicMessages`,
  `MirrorNode.getAllUserHNSNfts`, `MirrorNode.nextApiCall`,
  `MirrorNode.nextApiCallTopics`, `MirrorNode.getTldTopicMessage`);
* the contract-gateway/resolver module (`decodeFunctionResult`,
  `callContractFunc`, `queryContractFunc`, `callGetTLD`, `callGetSLDNode`).

Conventions of the embedding:

* A JavaScript `async` function that can throw is embedded as a function into
  `Except String α`; `.error` is a thrown (propagating) exception, `.ok` a
  normal return.  A JS `try/catch` whose handler returns a value is embedded
  by matching on the body's `Except` and mapping `.error` to the handler's
  return value.
* The mirror-node REST server is embedded as an environment that assigns to
  each resource its chain of pages; `links.next` of page `i` is non-null
  exactly when page `i + 1` exists, matching the server contract the code
  relies on.  A transport failure while fetching page `i` (axios rejection,
  which `sendGetRequest` rewraps as `Error('Get Request Failed')`) is
  represented by membership of `i` in a `fails` set.
* Base64/JSON envelope decoding of topic messages is treated as the correct
  external component the spec declares it to be: messages are carried in
  already-decoded structured form.
* So that claims about which pages are requested can be stated, the
  page-walking functions additionally return the chronological list of
  `(topic, page index)` fetches they performed.  This log is a ghost output;
  it does not influence the computed values.
-/

namespace HNS

/-! ## Data model of the mirror-node reader -/

/-- Identifier of a consensus topic (string form, as in the REST urls). -/
abbrev TopicId := String

/-- A decoded registration-event topic message.  The source keeps the raw
envelope and reads `JSON.parse(Buffer.from(x.message, 'base64')).nftId`; the
`nftId` field here is that decoded field and `payload` stands for the rest of
the envelope (it lets two distinct events carry the same `nftId`). -/
structure TopicMsg where
  nftId : String
  payload : String
deriving DecidableEq, Repr

/-- An NFT record as delivered by the mirror node (`token_id`,
`serial_number`, `account_id`); also the shape of the entries of
`userNftLists` in `getNftTopicMessages`. -/
structure NFT where
  token_id : String
  serial_number : Nat
  account_id : String
deriving DecidableEq, Repr

/-- Server-side state of one topic: its pages (each a list of messages) and
the set of page indices whose fetch fails with a transport error. -/
structure TopicData where
  pages : List (List TopicMsg)
  fails : List Nat
deriving Repr

/-- The mirror-node server, as seen through topic-message urls. -/
abbrev Env := TopicId → TopicData

/-- An entry of the `topicMessages` argument of `getNftTopicMessages`
(the code reads `topicMessages[index].topicId`). -/
structure TopicEntry where
  topicId : TopicId
deriving DecidableEq, Repr

/-- An entry of the `topicMessages` argument of `getAllUserHNSNfts`
(the code reads `topicMessages[index].tokenId`). -/
structure TokenEntry where
  tokenId : String
deriving DecidableEq, Repr

/-- The string `` `${y.token_id}:${y.serial_number}` `` built by the filter in
`getNftTopicMessages`. -/
def nftIdOf (y : NFT) : String :=
  y.token_id ++ ":" ++ toString y.serial_number

/-- The filter predicate of `getNftTopicMessages`:
`userNftLists.some((y) => currMsgInfo.nftId === ...)`. -/
def msgMatches (userNftLists : List NFT) (m : TopicMsg) : Bool :=
  userNftLists.any fun y => m.nftId == nftIdOf y

/-! ## nextApiCallTopics

`MirrorNode.nextApiCallTopics(url)` fetches the page behind a `links.next`
url and, while the fetched page again has a non-null `links.next`, recursively
fetches onward, returning `nextData.data.messages.concat(recursive result)`.
The walk is embedded structurally over the list of pages that remain behind
the current one: `msgs` is the current page's `messages` array and `rest` the
pages still reachable through `links.next` (so `links.next` is non-null iff
`rest` is non-empty). -/

def nextApiCallTopicsGo (t : TopicId) (fails : List Nat) :
    Nat → List TopicMsg → List (List TopicMsg) →
      Except String (List TopicMsg × List (TopicId × Nat))
  | i, msgs, [] =>
      if i ∈ fails then .error "Get Request Failed"
      else .ok (msgs, [(t, i)])
  | i, msgs, nextPage :: rest =>
      if i ∈ fails then .error "Get Request Failed"
      else
        match nextApiCallTopicsGo t fails (i + 1) nextPage rest with
        | .error e => .error e
        | .ok (ms, log) => .ok (msgs ++ ms, (t, i) :: log)

/-- `MirrorNode.nextApiCallTopics`, entered at page `i` of topic `t`. -/
def nextApiCallTopics (env : Env) (t : TopicId) (i : Nat) :
    Except String (List TopicMsg × List (TopicId × Nat)) :=
  nextApiCallTopicsGo t (env t).fails i ((env t).pages.getD i [])
    ((env t).pages.drop (i + 1))

/-! ## getNftTopicMessages (the reconciliation engine) -/

/-- Loop body of `MirrorNode.getNftTopicMessages`: for each topic entry,
fetch the topic's first message page, keep the messages whose decoded `nftId`
matches a holding, then — if the first page has a non-null `links.next` —
fetch all remaining pages through `nextApiCallTopics` and keep their matches
too; finally `break` out of the topic loop when the accumulated match count
equals the number of holdings.  `acc` is the `nftDataMessages` accumulator and
`log` the ghost fetch log. -/
def getNftTopicMessagesGo (env : Env) (userNftLists : List NFT) :
    List TopicEntry → List TopicMsg → List (TopicId × Nat) →
      Except String (List TopicMsg × List (TopicId × Nat))
  | [], acc, log => .ok (acc, log)
  | te :: rest, acc, log =>
      let td := env te.topicId
      if 0 ∈ td.fails then .error "Get Request Failed"
      else
        let filteredData := (td.pages.getD 0 []).filter (msgMatches userNftLists)
        let acc1 := acc ++ filteredData
        let log1 := log ++ [(te.topicId, 0)]
        if 1 < td.pages.length then
          match nextApiCallTopics env te.topicId 1 with
          | .error e => .error e
          | .ok (nextCall, log2) =>
              let nextData := nextCall.filter (msgMatches userNftLists)
              let acc2 := acc1 ++ nextData
              let log3 := log1 ++ log2
              if acc2.length = userNftLists.length then .ok (acc2, log3)
              else getNftTopicMessagesGo env userNftLists rest acc2 log3
        else
          if acc1.length = userNftLists.length then .ok (acc1, log1)
          else getNftTopicMessagesGo env userNftLists rest acc1 log1

/-- `MirrorNode.getNftTopicMessages(topicMessages, userNftLists)`. -/
def getNftTopicMessages (env : Env) (topicMessages : List TopicEntry)
    (userNftLists : List NFT) :
    Except String (List TopicMsg × List (TopicId × Nat)) :=
  getNftTopicMessagesGo env userNftLists topicMessages [] []

/-- The match list of a reconciliation run (empty if the run threw). -/
def runMatches (r : Except String (List TopicMsg × List (TopicId × Nat))) :
    List TopicMsg :=
  match r with
  | .ok (ms, _) => ms
  | .error _ => []

/-- The chronological `(topic, page)` fetch log of a reconciliation run
(empty if the run threw). -/
def runLog (r : Except String (List TopicMsg × List (TopicId × Nat))) :
    List (TopicId × Nat) :=
  match r with
  | .ok (_, log) => log
  | .error _ => []

/-! ## NFT listings and their two pagination followers

The server's per-resource NFT listing is again a chain of pages; `fails`
marks page indices whose fetch suffers a transport error. -/

/-- Server-side state of one paginated NFT listing. -/
structure NftPages where
  pages : List (List NFT)
  fails : List Nat
deriving Repr

/-- Loop of `MirrorNode.getNFTsByAccountId`: take the first page's `nfts`,
then `while (res.data.links.next)` fetch the next page and push its `nfts`.
`acc` holds the items collected so far, `page` the `nfts` array of the page
just fetched (page `i`), and `rest` the pages still behind `links.next`. -/
def getNFTsByAccountIdGo (fails : List Nat) :
    Nat → List NFT → List NFT → List (List NFT) → Except String (List NFT)
  | i, acc, page, [] =>
      if i ∈ fails then .error "Get Request Failed"
      else .ok (acc ++ page)
  | i, acc, page, p2 :: rest =>
      if i ∈ fails then .error "Get Request Failed"
      else getNFTsByAccountIdGo fails (i + 1) (acc ++ page) p2 rest

/-- `MirrorNode.getNFTsByAccountId(tokenId, accountId)` — the iterative
cursor follower. -/
def getNFTsByAccountId (env : String → String → NftPages)
    (tokenId accountId : String) : Except String (List NFT) :=
  let nd := env tokenId accountId
  getNFTsByAccountIdGo nd.fails 0 [] (nd.pages.getD 0 []) (nd.pages.drop 1)

/-- `MirrorNode.nextApiCall(url)` — the recursive cursor follower used by
`getAllUserHNSNfts`.  When the fetched page's `links.next` is non-null the
source evaluates `await this.nextApiCall(next)` (so the remaining pages are
requested first) and then invokes `nextData.data.concat(...)`; `nextData.data`
is the plain page envelope object `{ nfts, links }`, which has no `concat`
method, so the call raises `TypeError` in JavaScript.  When `links.next` is
null it returns `nextData.data`, of which the caller reads only the `nfts`
array — embedded here as returning that array. -/
def nextApiCallGo (fails : List Nat) :
    Nat → List NFT → List (List NFT) → Except String (List NFT)
  | i, nfts, [] =>
      if i ∈ fails then .error "Get Request Failed"
      else .ok nfts
  | i, _nfts, nextPage :: rest =>
      if i ∈ fails then .error "Get Request Failed"
      else
        match nextApiCallGo fails (i + 1) nextPage rest with
        | .error e => .error e
        | .ok _ => .error "TypeError: nextData.data.concat is not a function"

/-- `MirrorNode.nextApiCall`, entered at page `i` of an NFT listing. -/
def nextApiCall (nd : NftPages) (i : Nat) : Except String (List NFT) :=
  nextApiCallGo nd.fails i (nd.pages.getD i []) (nd.pages.drop (i + 1))

/-- Loop of `MirrorNode.getAllUserHNSNfts(topicMessages, accountId)`: for
each token collection fetch the first page of the account's NFT listing, push
its `nfts`, and if `links.next !== null` delegate the remaining pages to
`nextApiCall`, pushing `nextCall.nfts` from its result. -/
def getAllUserHNSNftsGo (env : String → String → NftPages)
    (accountId : String) :
    List TokenEntry → List NFT → Except String (List NFT)
  | [], nftList => .ok nftList
  | te :: rest, nftList =>
      let nd := env te.tokenId accountId
      if 0 ∈ nd.fails then .error "Get Request Failed"
      else
        let acc := nftList ++ nd.pages.getD 0 []
        if 1 < nd.pages.length then
          match nextApiCall nd 1 with
          | .error e => .error e
          | .ok nextNfts => getAllUserHNSNftsGo env accountId rest (acc ++ nextNfts)
        else getAllUserHNSNftsGo env accountId rest acc

/-- `MirrorNode.getAllUserHNSNfts(topicMessages, accountId)`. -/
def getAllUserHNSNfts (env : String → String → NftPages)
    (topicMessages : List TokenEntry) (accountId : String) :
    Except String (List NFT) :=
  getAllUserHNSNftsGo env accountId topicMessages []

/-! ## getTldTopicMessage -/

/-- `nameHash` field of a decoded main-TLD topic message; the filter of
`getTldTopicMessage` reads `x.nameHash.domain`. -/
structure TldNameHash where
  domain : String
deriving DecidableEq, Repr

/-- A decoded main-TLD topic message; `payload` stands for the remaining
fields of the decoded JSON envelope. -/
structure TldMessage where
  nameHash : TldNameHash
  payload : String
deriving DecidableEq, Repr

/-- The hardcoded list `const DOMAINS = ['hbar', 'boo', 'cream']`. -/
def DOMAINS : List String := ["hbar", "boo", "cream"]

/-- JavaScript truthiness of the value of `Array.prototype.find` over an
array of strings: `undefined` and the empty string are falsy, every other
string is truthy. -/
def jsTruthyStrOpt : Option String → Bool
  | some s => s ≠ ""
  | none => false

/-- `MirrorNode.getTldTopicMessage()`: decode every message of the main TLD
topic's first page and keep those for which
`DOMAINS.find((y) => y === x.nameHash.domain)` is truthy.  The argument is
the decoded message list of that page. -/
def getTldTopicMessage (messages : List TldMessage) : List TldMessage :=
  messages.filter fun x =>
    jsTruthyStrOpt (DOMAINS.find? fun y => y == x.nameHash.domain)

/-! ## The remote call gateway (contract helper module)

Embedding of `decodeFunctionResult`, `callContractFunc`, `queryContractFunc`
and the `callGet*` wrappers.  Contract ids and solidity addresses are carried
as `Nat`, byte arrays as `List Nat`. -/

/-- One entry of an interface-description (ABI) file: a function name and
its declared output schema (`outputs`). -/
structure AbiFunc where
  name : String
  outputs : List String
deriving DecidableEq, Repr

/-- An argument added to `ContractFunctionParameters`
(`addBytes32` / `addUint256`). -/
inductive Param where
  | bytes32 (b : List Nat)
  | uint256 (n : Nat)
deriving DecidableEq, Repr

/-- A decoded output value produced by the ABI codec
(`web3.eth.abi.decodeParameters`). -/
inductive Value where
  | addr (a : Nat)
  | uint (n : Nat)
  | str (s : String)
deriving DecidableEq, Repr

/-- The JS value returned by `callContractFunc` / `queryContractFunc`: either
the decoded outputs or the `Error` object produced in the catch block. -/
inductive JsValue where
  | vals (vs : List Value)
  | errObj (msg : String)
deriving DecidableEq, Repr

/-- Response of `ContractCallQuery.execute`; `bytes` is `none` when the
response carries no result bytes (`!response.bytes`). -/
structure QueryResponse where
  bytes : Option (List Nat)
deriving DecidableEq, Repr

/-- Record obtained from `response.getRecord(client)`:
`contractFunctionResult` is `none` when `!record.contractFunctionResult`, and
`receiptStatusCode` is `record.receipt.status._code`. -/
structure TxRecord where
  contractFunctionResult : Option (List Nat)
  receiptStatusCode : Nat
deriving DecidableEq, Repr

/-- `Status.Success._code` of the ledger SDK. -/
def statusSuccessCode : Nat := 22

/-- The external world of the gateway: the ABI files on disk (`abis`, looked
up by path), the ABI codec (`codec`, which the spec treats as a correct
external component), and the ledger RPC substrate.  `queryTx` is the effect
of `ContractCallQuery...execute(client)` and `executeTx` the combined effect
of `ContractExecuteTransaction...execute(client)` followed by
`response.getRecord(client)`; for both, `.error` is a thrown SDK/transport
exception and the `Option` is the null-response/null-record case the code
tests for. -/
structure World where
  abis : String → List AbiFunc
  codec : List String → List Nat → List Value
  queryTx : Nat → String → List Param → Nat → Except String (Option QueryResponse)
  executeTx : Nat → String → List Param → Nat → Option (List Nat) →
    Except String (Option TxRecord)

/-- `decodeFunctionResult(functionName, abiPath, resultAsBytes)`: load the
ABI behind `abiPath`, look the function up by name
(`abi.find((func) => func.name === functionName)`) and decode the bytes with
the function's `outputs` schema.  When no entry matches, `find` yields
`undefined` and the subsequent `functionAbi.outputs` access raises
`TypeError` in JavaScript. -/
def decodeFunctionResult (abis : String → List AbiFunc)
    (codec : List String → List Nat → List Value)
    (functionName abiPath : String) (resultAsBytes : List Nat) :
    Except String (List Value) :=
  match (abis abiPath).find? (fun func => func.name == functionName) with
  | none =>
      .error "TypeError: Cannot read properties of undefined (reading 'outputs')"
  | some functionAbi => .ok (codec functionAbi.outputs resultAsBytes)

/-- A JS `try { body } catch (err) { logger.error(err); return handler }`
whose handler only returns: a thrown body is converted to the handler's
value, so the whole construct returns normally. -/
def jsTryCatch (body : Except String (List Value)) (handler : JsValue) :
    Except String JsValue :=
  match body with
  | .ok vs => .ok (.vals vs)
  | .error _ => .ok handler

/-- The `try` body of `queryContractFunc`: build and execute the
`ContractCallQuery`, throw `Error('ContractCallQuery failed')` when
`!response || !response.bytes`, otherwise decode the bytes. -/
def queryContractFuncBody (w : World) (contractId : Nat)
    (abiPath funcName : String) (funcParams : List Param) (gas : Nat) :
    Except String (List Value) :=
  match w.queryTx contractId funcName funcParams gas with
  | .error e => .error e
  | .ok none => .error "ContractCallQuery failed"
  | .ok (some response) =>
      match response.bytes with
      | none => .error "ContractCallQuery failed"
      | some bs => decodeFunctionResult w.abis w.codec funcName abiPath bs

/-- `queryContractFunc(client, contractId, abiPath, funcName, funcParams,
gas)`. -/
def queryContractFunc (w : World) (contractId : Nat)
    (abiPath funcName : String) (funcParams : List Param) (gas : Nat) :
    Except String JsValue :=
  jsTryCatch (queryContractFuncBody w contractId abiPath funcName funcParams gas)
    (.errObj "queryContractFunc failed")

/-- The `try` body of `callContractFunc`: freeze and sign the
`ContractExecuteTransaction`, execute it and obtain the record, throw
`Error('ContractExecuteTransaction failed')` when `!record ||
!record.contractFunctionResult || record.receipt.status._code !==
Status.Success._code`, otherwise decode the result bytes. -/
def callContractFuncBody (w : World) (contractId : Nat)
    (abiPath funcName : String) (funcParams : List Param) (gas : Nat)
    (keys : Option (List Nat)) : Except String (List Value) :=
  match w.executeTx contractId funcName funcParams gas keys with
  | .error e => .error e
  | .ok none => .error "ContractExecuteTransaction failed"
  | .ok (some record) =>
      match record.contractFunctionResult with
      | none => .error "ContractExecuteTransaction failed"
      | some bs =>
          if record.receiptStatusCode ≠ statusSuccessCode then
            .error "ContractExecuteTransaction failed"
          else decodeFunctionResult w.abis w.codec funcName abiPath bs

/-- `callContractFunc(client, contractId, abiPath, funcName, funcParams, gas,
keys)`. -/
def callContractFunc (w : World) (contractId : Nat)
    (abiPath funcName : String) (funcParams : List Param) (gas : Nat)
    (keys : Option (List Nat)) : Except String JsValue :=
  jsTryCatch (callContractFuncBody w contractId abiPath funcName funcParams gas keys)
    (.errObj "callContractFunc failed")

/-- True when an embedded JS computation propagated an exception to its
caller. -/
def isThrown {α : Type} : Except String α → Bool
  | .error _ => true
  | .ok _ => false

/-! ## Resolver wrappers -/

/-- `MAX_GAS` from the constants module (opaque configuration; the concrete
number is irrelevant to the claims). -/
def MAX_GAS : Nat := 1000000

/-- The well-known manager contract id `TLD_MANAGER_ID` (opaque
configuration). -/
def TLD_MANAGER_ID : Nat := 1

/-- Path of the manager's interface description, `TLD_MANAGER_ABI`. -/
def TLD_MANAGER_ABI : String := "TLD_MANAGER_ABI"

/-- Path of the TLD node's interface description, `TLD_NODE_ABI`. -/
def TLD_NODE_ABI : String := "TLD_NODE_ABI"

/-- `ContractInfo` as returned by `getTLDManagerInfo`. -/
structure ContractInfo where
  id : Nat
  abi : String
deriving DecidableEq, Repr

/-- `getTLDManagerInfo()`: the manager's well-known address and schema. -/
def getTLDManagerInfo : ContractInfo :=
  ⟨TLD_MANAGER_ID, TLD_MANAGER_ABI⟩

/-- `getTLDNodeAbi()`. -/
def getTLDNodeAbi : String := TLD_NODE_ABI

/-- The per-level `NameHash` of a dotted domain name. -/
structure NameHash where
  tldHash : List Nat
  sldHash : List Nat
  subdomainHash : List Nat
deriving DecidableEq, Repr

/-- `result[0]` on the value returned by the gateway: on a decoded-parameters
object it is output number 0; on an `Error` object (or an empty output list)
it is `undefined`. -/
def jsIndex0 : JsValue → Option Value
  | .vals (v :: _) => some v
  | .vals [] => none
  | .errObj _ => none

/-- `ContractId.fromSolidityAddress`: parses a 20-byte address into a
contract id.  The zero address parses like any other, yielding contract id
`0` (that is, `0.0.0`); a non-address argument (such as `undefined`) makes
the SDK throw. -/
def contractIdFromSolidityAddress : Option Value → Except String Nat
  | some (.addr a) => .ok a
  | _ => .error "SDK: invalid solidity address"

/-- A JS `try { body } catch (err) { logger.error(err); throw new Error(msg) }`:
a thrown body is rethrown as the generic error `msg`. -/
def jsRethrow {α : Type} (body : Except String α) (msg : String) :
    Except String α :=
  match body with
  | .ok v => .ok v
  | .error _ => .error msg

/-- `callGetTLD(client, tldHash)`: query the manager's `getTLD` with the
32-byte hash and parse `result[0]` as a contract id; any thrown error is
caught and rethrown as `Error('Failed to call getTLD')`. -/
def callGetTLD (w : World) (tldHash : List Nat) : Except String Nat :=
  jsRethrow
    (queryContractFunc w getTLDManagerInfo.id getTLDManagerInfo.abi
        "getTLD" [.bytes32 tldHash] MAX_GAS >>= fun result =>
      contractIdFromSolidityAddress (jsIndex0 result))
    "Failed to call getTLD"

/-- `callGetSLDNode(client, nameHash, tldNodeId, begin, end)`: query the TLD
node's `getSLDNode` with the SLD hash and the shard range and parse
`result[0]` as a contract id; any thrown error is caught and rethrown as
`Error('Failed to call getSLDNode')`.  The source's `begin` and `end`
parameters (which default to `0`) are named `beginIdx` and `endIdx` here
because both words are Lean keywords. -/
def callGetSLDNode (w : World) (nameHash : NameHash) (tldNodeId : Nat)
    (beginIdx endIdx : Nat) : Except String Nat :=
  jsRethrow
    (queryContractFunc w tldNodeId getTLDNodeAbi "getSLDNode"
        [.bytes32 nameHash.sldHash, .uint256 beginIdx, .uint256 endIdx]
        MAX_GAS >>= fun result =>
      contractIdFromSolidityAddress (jsIndex0 result))
    "Failed to call getSLDNode"

/-! ## The TLD node contract's shard table (spec-modelled) -/

/-- Modelled from the spec: one shard of a TLD node's internal shard table —
the registry contract holding it is not part of this repository's source
(only its caller `callGetSLDNode` is).  Per spec section 3, a shard is a
sub-partition of the TLD node's SLD index; it is modelled as the SLD-node
contract address it routes to together with the set of `sldHash` keys it
holds. -/
structure Shard where
  sldNode : Nat
  hashes : List (List Nat)
deriving DecidableEq, Repr

/-- Modelled from the spec: the index range searched by the contract's
`getSLDNode` — spec section 3 (`ShardRange`): `(0, 0)` denotes "search the
full table", bounded by the shard count; otherwise the explicitly supplied
`[begin, end)` sub-range of the `[0, shardCount)` space is searched. -/
def shardSearchIdxs (shardCount beginIdx endIdx : Nat) : List Nat :=
  if beginIdx = 0 ∧ endIdx = 0 then List.range shardCount
  else List.range' beginIdx (endIdx - beginIdx)

/-- Modelled from the spec: the TLD node contract's `getSLDNode(sldHash,
begin, end)`, whose implementation is not in the repository's source.  Spec
sections 3 and 4.3: it searches the shard table, restricted to the given
range (the full table for the default `(0, 0)`), for the shard covering
`sldHash`, and returns the solidity address of that shard's SLD node
contract; when no shard in range reports ownership it yields the zero
address. -/
def getSLDNodeContract (shards : List Shard) (h : List Nat)
    (beginIdx endIdx : Nat) : Nat :=
  match (shardSearchIdxs shards.length beginIdx endIdx).find?
      (fun i => decide (h ∈ (shards.getD i ⟨0, []⟩).hashes)) with
  | some i => (shards.getD i ⟨0, []⟩).sldNode
  | none => 0

/-- Contract id under which the examples deploy a TLD node. -/
def TLD_NODE_ID : Nat := 2

/-- A gateway world wired to a TLD node with the given shard table: queries
of `getSLDNode` on `TLD_NODE_ID` are answered by `getSLDNodeContract`, the
result bytes carry the returned address, and the codec decodes them back to
that address. -/
def mkTldWorld (shards : List Shard) : World :=
  ⟨fun _ => [⟨"getSLDNode", ["address"]⟩, ⟨"getNumNodes", ["uint256"]⟩],
   fun _ bs => [.addr (bs.getD 0 0)],
   fun cid fn ps _ =>
     if cid = TLD_NODE_ID ∧ fn = "getSLDNode" then
       match ps with
       | [.bytes32 h, .uint256 b, .uint256 e] =>
           .ok (some ⟨some [getSLDNodeContract shards h b e]⟩)
       | _ => .ok none
     else .ok none,
   fun _ _ _ _ _ => .ok none⟩

/-! ## Concrete scenarios -/

/-- Registration event for serial 1, published on page 1 of topic `A`. -/
def c1m1 : TopicMsg := ⟨"t:1", "registration of name1"⟩

/-- Registration event for serial 2, published on page 3 of topic `A`. -/
def c1m3 : TopicMsg := ⟨"t:2", "registration of name2"⟩

/-- The two holdings of the account in the C1 scenario. -/
def c1holdings : List NFT := [⟨"t", 1, "0.0.99"⟩, ⟨"t", 2, "0.0.99"⟩]

/-- Event-log server of the C1 scenario: topic `A` has five pages with the
two matching events on pages 1 and 3 (indices 0 and 2); topic `B` is a
further event topic that a fully lazy engine would not need. -/
def c1env : Env := fun t =>
  if t = "A" then
    ⟨[[c1m1, ⟨"x:9", "unrelated event p1"⟩],
      [⟨"x:8", "unrelated event p2"⟩],
      [c1m3],
      [⟨"x:7", "unrelated event p4"⟩],
      [⟨"x:6", "unrelated event p5"⟩]], []⟩
  else if t = "B" then ⟨[[⟨"t:1", "stale duplicate on topic B"⟩]], []⟩
  else ⟨[], []⟩

/-- Topic list of the C1 scenario. -/
def c1topics : List TopicEntry := [⟨"A"⟩, ⟨"B"⟩]

/-- First, second and third page items of the C2 NFT listing. -/
def c2n1 : NFT := ⟨"T", 1, "0.0.99"⟩

/-- Second page item of the C2 NFT listing. -/
def c2n2 : NFT := ⟨"T", 2, "0.0.99"⟩

/-- Third page item of the C2 NFT listing. -/
def c2n3 : NFT := ⟨"T", 3, "0.0.99"⟩

/-- NFT-listing server of the C2 scenario: the account's listing for token
collection `T` spans three chained pages, one item each, no transport
failures. -/
def c2env : String → String → NftPages := fun tokenId accountId =>
  if tokenId = "T" ∧ accountId = "0.0.99" then ⟨[[c2n1], [c2n2], [c2n3]], []⟩
  else ⟨[], []⟩

/-- An unregistered TLD hash (32 zero bytes) for the C3 scenario. -/
def c3hash : List Nat := List.replicate 32 0

/-- World of the C3 scenario: the manager's `getTLD` answers every query
with result bytes that decode to the zero solidity address — the manager's
way of reporting an unregistered TLD per the spec. -/
def c3world : World :=
  ⟨fun p => if p = TLD_MANAGER_ABI then [⟨"getTLD", ["address"]⟩] else [],
   fun os bs => if os = ["address"] then [.addr (bs.getD 0 0)] else [],
   fun cid fn _ _ =>
     if cid = TLD_MANAGER_ID ∧ fn = "getTLD" then .ok (some ⟨some [0]⟩)
     else .ok none,
   fun _ _ _ _ _ => .ok none⟩

/-- ABI files of the C4 scenario: the one file on disk declares only
`getTLD`. -/
def c4abis : String → List AbiFunc := fun p =>
  if p = "roleAbi" then [⟨"getTLD", ["address"]⟩] else []

/-- A codec for scenarios in which decoding is never reached. -/
def c4codec : List String → List Nat → List Value := fun _ _ => []

/-- World of the C5 scenario: the query response carries no result bytes and
the execute record reports receipt status 33 (non-success). -/
def c5world : World :=
  ⟨fun _ => [⟨"f", ["uint256"]⟩],
   fun _ _ => [],
   fun _ _ _ _ => .ok (some ⟨none⟩),
   fun _ _ _ _ _ => .ok (some ⟨some [0], 33⟩)⟩

/-- First of two distinct registration events bound to the same
`(tokenId, serial)` pair in the C6 scenario. -/
def c6msgA : TopicMsg := ⟨"t1:1", "original registration event"⟩

/-- Second, distinct event with the same `(tokenId, serial)` pair. -/
def c6msgB : TopicMsg := ⟨"t1:1", "replayed registration event"⟩

/-- The single holding of the C6 scenario. -/
def c6holdings : List NFT := [⟨"t1", 1, "0.0.99"⟩]

/-- The one event-log page of the C6 scenario. -/
def c6page : List TopicMsg := [c6msgA, c6msgB]

/-- Event-log server of the C6 scenario. -/
def c6env : Env := fun t =>
  if t = "A" then ⟨[c6page], []⟩ else ⟨[], []⟩

/-- The three holdings of the C7 scenario. -/
def c7holdings : List NFT := [⟨"t", 1, "0.0.99"⟩, ⟨"t", 2, "0.0.99"⟩, ⟨"t", 3, "0.0.99"⟩]

/-- Event-log server of the C7 scenario: across both pages of topic `W` only
two events match the three holdings, so pagination is exhausted before full
coverage. -/
def c7env : Env := fun t =>
  if t = "W" then ⟨[[⟨"t:1", "event one"⟩], [⟨"t:2", "event two"⟩]], []⟩
  else ⟨[], []⟩

/-- Topic list of the C7 scenario. -/
def c7topics : List TopicEntry := [⟨"W"⟩]

/-- The `sldHash` held by shard 0 in the C8 scenario. -/
def c8hashA : List Nat := [10, 11]

/-- The `sldHash` held by shard 1 in the C8 scenario. -/
def c8hashB : List Nat := [20, 21]

/-- Shard table of the C8 scenario: two shards routing to SLD node
contracts 5 and 7. -/
def c8shards : List Shard := [⟨5, [c8hashA]⟩, ⟨7, [c8hashB]⟩]

/-- Name hash of the C8 scenario: its `sldHash` lives in shard 1. -/
def c8nh : NameHash := ⟨[1], c8hashB, [3]⟩

/-! ## Helper lemmas -/

/-- `find?` returns the element `i` when `i` occurs in the list, satisfies
the predicate, and is the only member of the list doing so. -/
theorem find_first_of_unique {p : Nat → Bool} {i : Nat} :
    ∀ {L : List Nat}, i ∈ L → p i = true → (∀ j ∈ L, p j = true → j = i) →
      L.find? p = some i := by
  intro L
  induction L with
  | nil => intro h _ _; cases h
  | cons a t ih =>
    intro hiL hpi huniq
    by_cases hpa : p a = true
    · have ha : a = i := huniq a (List.mem_cons_self a t) hpa
      rw [List.find?_cons_of_pos t hpa, ha]
    · rw [List.find?_cons_of_neg t hpa]
      have hit : i ∈ t := by
        rcases List.mem_cons.mp hiL with h | h
        · exact absurd (h ▸ hpi) hpa
        · exact h
      exact ih hit hpi fun j hj hpj => huniq j (List.mem_cons_of_mem a hj) hpj

/-- Without transport failures, the recursive topic-page follower never
throws. -/
theorem nextApiCallTopicsGo_ok (t : TopicId) :
    ∀ (rest : List (List TopicMsg)) (i : Nat) (msgs : List TopicMsg),
      ∃ x, nextApiCallTopicsGo t [] i msgs rest = .ok x := by
  intro rest
  induction rest with
  | nil =>
    intro i msgs
    exact ⟨_, rfl⟩
  | cons p rest ih =>
    intro i msgs
    obtain ⟨x, hx⟩ := ih (i + 1) p
    refine ⟨(msgs ++ x.1, (t, i) :: x.2), ?_⟩
    simp only [nextApiCallTopicsGo, List.not_mem_nil, if_false, hx]

/-- Without transport failures on topic `t`, `nextApiCallTopics` never
throws. -/
theorem nextApiCallTopics_ok (env : Env) (t : TopicId) (i : Nat)
    (hf : (env t).fails = []) : ∃ x, nextApiCallTopics env t i = .ok x := by
  unfold nextApiCallTopics
  rw [hf]
  exact nextApiCallTopicsGo_ok t _ i _

/-- Without transport failures on the listed topics, the reconciliation loop
never throws, whatever its accumulators hold. -/
theorem getNftTopicMessagesGo_ok (env : Env) (userNftLists : List NFT) :
    ∀ (ts : List TopicEntry) (acc : List TopicMsg) (log : List (TopicId × Nat)),
      (∀ te ∈ ts, (env te.topicId).fails = []) →
      ∃ p, getNftTopicMessagesGo env userNftLists ts acc log = .ok p := by
  intro ts
  induction ts with
  | nil => intro acc log _; exact ⟨_, rfl⟩
  | cons te rest ih =>
    intro acc log hf
    have h0 : (env te.topicId).fails = [] := hf te (List.mem_cons_self _ _)
    have hrest : ∀ te2 ∈ rest, (env te2.topicId).fails = [] :=
      fun te2 h2 => hf te2 (List.mem_cons_of_mem _ h2)
    simp only [getNftTopicMessagesGo, h0, List.not_mem_nil, if_false]
    by_cases hlen : 1 < (env te.topicId).pages.length
    · rw [if_pos hlen]
      obtain ⟨x, hx⟩ := nextApiCallTopics_ok env te.topicId 1 h0
      obtain ⟨ms, lg⟩ := x
      simp only [hx]
      by_cases heq :
          (acc ++ List.filter (msgMatches userNftLists)
                ((env te.topicId).pages.getD 0 []) ++
              List.filter (msgMatches userNftLists) ms).length =
            userNftLists.length
      · rw [if_pos heq]; exact ⟨_, rfl⟩
      · rw [if_neg heq]; exact ih _ _ hrest
    · rw [if_neg hlen]
      by_cases heq :
          (acc ++ List.filter (msgMatches userNftLists)
              ((env te.topicId).pages.getD 0 [])).length =
            userNftLists.length
      · rw [if_pos heq]; exact ⟨_, rfl⟩
      · rw [if_neg heq]; exact ih _ _ hrest

/-! ## The claims -/

/-- C1, counterexample.  The claim states that once the number of accumulated
matches equals the number of holdings no further event-log pages are fetched,
and in particular that with 2 holdings and a 5-page event topic whose matches
occur on pages 1 and 3, pages 4–5 are never requested.  In the exact scenario
the claim describes (`c1env`, topic `A`), the fetch log of the run does
contain pages 4 and 5 of topic `A` (indices 3 and 4): `getNftTopicMessages`
checks the match count only after `nextApiCallTopics` has already followed
the whole `links.next` chain of the topic, so all five pages are requested. -/
theorem claim_C1_counterexample :
    ("A", 3) ∈ runLog (getNftTopicMessages c1env c1topics c1holdings) ∧
    ("A", 4) ∈ runLog (getNftTopicMessages c1env c1topics c1holdings) ∧
    runMatches (getNftTopicMessages c1env c1topics c1holdings) = [c1m1, c1m3] :=
  ⟨by decide, by decide, rfl⟩

/-- C1, amended.  In the claimed 2-holdings/5-pages scenario the engine does
return exactly the 2 matches, but early termination happens only at topic
granularity: all 5 pages of topic `A` are requested (pages 4–5 included),
and it is the next *topic* `B` that is never requested — the break out of
the topic loop fires once the match count equals the holdings count. -/
theorem claim_C1_corrected :
    getNftTopicMessages c1env c1topics c1holdings =
      .ok ([c1m1, c1m3],
        [("A", 0), ("A", 1), ("A", 2), ("A", 3), ("A", 4)]) := rfl

/-- C2, code evaluation at the failing input.  For a 3-page listing the
recursive cursor follower `nextApiCall` throws
`TypeError: nextData.data.concat is not a function` — the page envelope
object has no `concat` method — instead of returning the concatenated items,
so `getAllUserHNSNfts` propagates that exception; the iterative follower
`getNFTsByAccountId`, fed the same 3-page listing, returns all items of all
pages in order with no duplicates, exhibiting the intended behavior. -/
theorem claim_C2_code_eval :
    getAllUserHNSNfts c2env [⟨"T"⟩] "0.0.99" =
      .error "TypeError: nextData.data.concat is not a function" ∧
    getNFTsByAccountId c2env "T" "0.0.99" = .ok [c2n1, c2n2, c2n3] :=
  ⟨rfl, rfl⟩

/-- C3, counterexample.  The claim states that when the manager returns a
null/zero address for a `tldHash`, `callGetTLD` fails with `UnknownTLDError`
rather than returning a contract reference.  In `c3world` the manager answers
with the zero solidity address, and `callGetTLD` returns the contract
reference `0` (i.e. `0.0.0`) as a normal, non-thrown result: the code has no
zero-address check and no `UnknownTLDError`. -/
theorem claim_C3_counterexample :
    callGetTLD c3world c3hash = .ok 0 ∧
    isThrown (callGetTLD c3world c3hash) = false :=
  ⟨rfl, rfl⟩

/-- C3, amended.  For every `tldHash` for which the manager's `getTLD`
returns result bytes decoding to a solidity address `a` — the zero address
`a = 0` of an unregistered TLD included — `callGetTLD` returns `a` parsed as
a contract id as a normal result; it raises no `UnknownTLDError` (no such
error exists in the code). -/
theorem claim_C3_corrected (w : World) (tldHash bs : List Nat)
    (os : List String) (a : Nat)
    (hq : w.queryTx TLD_MANAGER_ID "getTLD" [.bytes32 tldHash] MAX_GAS =
      .ok (some ⟨some bs⟩))
    (ha : (w.abis TLD_MANAGER_ABI).find? (fun func => func.name == "getTLD") =
      some ⟨"getTLD", os⟩)
    (hc : w.codec os bs = [.addr a]) :
    callGetTLD w tldHash = .ok a := by
  have hbody : queryContractFuncBody w TLD_MANAGER_ID TLD_MANAGER_ABI "getTLD"
      [.bytes32 tldHash] MAX_GAS = .ok [Value.addr a] := by
    unfold queryContractFuncBody
    simp only [hq]
    unfold decodeFunctionResult
    simp only [ha, hc]
  have hquery : queryContractFunc w TLD_MANAGER_ID TLD_MANAGER_ABI "getTLD"
      [.bytes32 tldHash] MAX_GAS = .ok (.vals [Value.addr a]) := by
    unfold queryContractFunc
    rw [hbody]
    rfl
  unfold callGetTLD
  rw [show getTLDManagerInfo.id = TLD_MANAGER_ID from rfl,
    show getTLDManagerInfo.abi = TLD_MANAGER_ABI from rfl, hquery]
  rfl

/-- C3, witness for the amended theorem, at the zero address the claim is
about. -/
theorem claim_C3_corrected_witness :
    callGetTLD c3world c3hash = .ok 0 :=
  claim_C3_corrected c3world c3hash [0] ["address"] 0 rfl rfl rfl

/-- C4: for every function name absent from the interface description the
decoder fails — the implementation raises the `TypeError` of reading
`outputs` on `undefined`, the behavior the spec names `DecodeError` — and in
particular never returns a decoded (empty or default) value. -/
theorem claim_C4 (abis : String → List AbiFunc)
    (codec : List String → List Nat → List Value)
    (functionName abiPath : String) (resultAsBytes : List Nat)
    (habs : ∀ func ∈ abis abiPath, func.name ≠ functionName) :
    decodeFunctionResult abis codec functionName abiPath resultAsBytes =
      .error "TypeError: Cannot read properties of undefined (reading 'outputs')" ∧
    ∀ vs, decodeFunctionResult abis codec functionName abiPath resultAsBytes ≠
      .ok vs := by
  have hfind : (abis abiPath).find? (fun func => func.name == functionName) =
      none :=
    List.find?_eq_none.mpr fun x hx => by simpa using habs x hx
  have heq : decodeFunctionResult abis codec functionName abiPath resultAsBytes =
      .error "TypeError: Cannot read properties of undefined (reading 'outputs')" := by
    unfold decodeFunctionResult
    rw [hfind]
  exact ⟨heq, fun vs h => Except.noConfusion (heq ▸ h)⟩

/-- C4, witness: the one ABI file of the scenario declares only `getTLD`, so
decoding a `missingFunc` result fails. -/
theorem claim_C4_witness :
    (∀ func ∈ c4abis "roleAbi", func.name ≠ "missingFunc") ∧
    decodeFunctionResult c4abis c4codec "missingFunc" "roleAbi" [0] =
      .error "TypeError: Cannot read properties of undefined (reading 'outputs')" :=
  ⟨by decide,
   (claim_C4 c4abis c4codec "missingFunc" "roleAbi" [0] (by decide)).1⟩

/-- C5, counterexample.  The claim states that on a query response with no
result bytes the operation fails with a typed error *raised to the caller*,
and likewise for an execute call with a non-success receipt.  In `c5world`
the query response has no bytes and the execute record a non-success status,
yet neither function raises: both return normally, yielding a generic
`Error` value built in their catch blocks. -/
theorem claim_C5_counterexample :
    queryContractFunc c5world 1 "abi" "f" [] MAX_GAS =
      .ok (.errObj "queryContractFunc failed") ∧
    isThrown (queryContractFunc c5world 1 "abi" "f" [] MAX_GAS) = false ∧
    callContractFunc c5world 1 "abi" "f" [] MAX_GAS none =
      .ok (.errObj "callContractFunc failed") ∧
    isThrown (callContractFunc c5world 1 "abi" "f" [] MAX_GAS none) = false :=
  ⟨rfl, rfl, rfl, rfl⟩

/-- C5, amended.  When the remote query response carries no result bytes,
`queryContractFunc` returns (does not raise) the generic `Error` value
`'queryContractFunc failed'`; when the execute record is absent or reports a
non-success receipt status, `callContractFunc` returns (does not raise) the
generic `Error` value `'callContractFunc failed'`.  The failures are thus
surfaced as returned error values, not as typed exceptions. -/
theorem claim_C5_corrected (w : World) (cid : Nat) (abiPath funcName : String)
    (ps : List Param) (gas : Nat) (keys : Option (List Nat)) :
    (∀ resp, w.queryTx cid funcName ps gas = .ok (some resp) →
      resp.bytes = none →
      queryContractFunc w cid abiPath funcName ps gas =
        .ok (.errObj "queryContractFunc failed")) ∧
    (w.executeTx cid funcName ps gas keys = .ok none →
      callContractFunc w cid abiPath funcName ps gas keys =
        .ok (.errObj "callContractFunc failed")) ∧
    (∀ r, w.executeTx cid funcName ps gas keys = .ok (some r) →
      r.contractFunctionResult = none ∨ r.receiptStatusCode ≠ statusSuccessCode →
      callContractFunc w cid abiPath funcName ps gas keys =
        .ok (.errObj "callContractFunc failed")) := by
  refine ⟨?_, ?_, ?_⟩
  · intro resp hq hb
    have hbody : queryContractFuncBody w cid abiPath funcName ps gas =
        .error "ContractCallQuery failed" := by
      unfold queryContractFuncBody
      simp only [hq, hb]
    unfold queryContractFunc
    rw [hbody]
    rfl
  · intro hx
    have hbody : callContractFuncBody w cid abiPath funcName ps gas keys =
        .error "ContractExecuteTransaction failed" := by
      unfold callContractFuncBody
      simp only [hx]
    unfold callContractFunc
    rw [hbody]
    rfl
  · intro r hx hr
    have hbody : callContractFuncBody w cid abiPath funcName ps gas keys =
        .error "ContractExecuteTransaction failed" := by
      unfold callContractFuncBody
      simp only [hx]
      rcases hr with hr | hr
      · simp only [hr]
      · rcases hcfr : r.contractFunctionResult with _ | bs
        · rfl
        · simp only [if_pos hr]
    unfold callContractFunc
    rw [hbody]
    rfl

/-- C5, witness for the amended theorem, at the `c5world` outcomes. -/
theorem claim_C5_corrected_witness :
    queryContractFunc c5world 1 "abi" "f" [] MAX_GAS =
      .ok (.errObj "queryContractFunc failed") ∧
    callContractFunc c5world 1 "abi" "f" [] MAX_GAS none =
      .ok (.errObj "callContractFunc failed") :=
  ⟨(claim_C5_corrected c5world 1 "abi" "f" [] MAX_GAS none).1 ⟨none⟩ rfl rfl,
   (claim_C5_corrected c5world 1 "abi" "f" [] MAX_GAS none).2.2 ⟨some [0], 33⟩
     rfl (Or.inr (by decide))⟩

/-- C6, counterexample.  The claim states that no two returned events
correspond to the same holding even when the event log contains several
events matching the same `(tokenId, serial)` pair.  With one holding and a
page carrying two distinct events whose `nftId` both equal that holding's
`tokenId:serial` string, the engine returns both events: the per-page filter
performs no deduplication. -/
theorem claim_C6_counterexample :
    getNftTopicMessages c6env [⟨"A"⟩] c6holdings =
      .ok ([c6msgA, c6msgB], [("A", 0)]) ∧
    c6msgA ≠ c6msgB ∧
    c6msgA.nftId = nftIdOf ⟨"t1", 1, "0.0.99"⟩ ∧
    c6msgB.nftId = nftIdOf ⟨"t1", 1, "0.0.99"⟩ :=
  ⟨rfl, by decide, rfl, rfl⟩

/-- C6, amended.  The match set is not deduplicated by `(tokenId, serial)`:
for a single-topic, single-page event log the engine returns exactly the
page's events whose `nftId` matches some holding — all of them, so several
events matching the same holding are all attributed to it. -/
theorem claim_C6_corrected (env : Env) (t : TopicId) (page : List TopicMsg)
    (userNftLists : List NFT)
    (hp : (env t).pages = [page]) (hf : (env t).fails = []) :
    getNftTopicMessages env [⟨t⟩] userNftLists =
      .ok (page.filter (msgMatches userNftLists), [(t, 0)]) := by
  unfold getNftTopicMessages
  simp only [getNftTopicMessagesGo, hf, hp, List.not_mem_nil, if_false]
  norm_num

/-- C6, witness for the amended theorem: on the duplicate-event page the
filter keeps both events. -/
theorem claim_C6_corrected_witness :
    (c6env "A").pages = [c6page] ∧ (c6env "A").fails = [] ∧
    getNftTopicMessages c6env [⟨"A"⟩] c6holdings =
      .ok (c6page.filter (msgMatches c6holdings), [("A", 0)]) :=
  ⟨rfl, rfl, claim_C6_corrected c6env "A" c6page c6holdings rfl rfl⟩

/-- C7: whenever every fetch of the listed event topics succeeds — in
particular when pagination is exhausted before every holding has been
matched — the reconciliation engine returns normally with the accumulated
(possibly partial) match set; it raises no error for incomplete coverage. -/
theorem claim_C7 (env : Env) (topics : List TopicEntry)
    (userNftLists : List NFT)
    (hf : ∀ te ∈ topics, (env te.topicId).fails = []) :
    ∃ p, getNftTopicMessages env topics userNftLists = .ok p :=
  getNftTopicMessagesGo_ok env userNftLists topics [] [] hf

/-- C7, witness: with 3 holdings and an exhausted 2-page event log holding
only 2 matchable events, the run still returns normally (and indeed with the
2-element partial match set). -/
theorem claim_C7_witness :
    (∀ te ∈ c7topics, (c7env te.topicId).fails = []) ∧
    (∃ p, getNftTopicMessages c7env c7topics c7holdings = .ok p) ∧
    runMatches (getNftTopicMessages c7env c7topics c7holdings) =
      [⟨"t:1", "event one"⟩, ⟨"t:2", "event two"⟩] :=
  ⟨by decide, claim_C7 c7env c7topics c7holdings (by decide), rfl⟩

/-- C8: against a TLD node whose (spec-modelled) shard table holds
`nh.sldHash` in exactly one shard `i`, `callGetSLDNode` invoked with an
explicit range `[beginIdx, endIdx)` known a priori to contain `i` returns
the same SLD node contract reference as the same lookup invoked with the
default range `(0, 0)`. -/
theorem claim_C8 (shards : List Shard) (nh : NameHash)
    (i beginIdx endIdx : Nat)
    (hlen : i < shards.length)
    (hin : nh.sldHash ∈ (shards.getD i ⟨0, []⟩).hashes)
    (huniq : ∀ j, j < shards.length →
      nh.sldHash ∈ (shards.getD j ⟨0, []⟩).hashes → j = i)
    (hb : beginIdx ≤ i) (he : i < endIdx) :
    callGetSLDNode (mkTldWorld shards) nh TLD_NODE_ID beginIdx endIdx =
      callGetSLDNode (mkTldWorld shards) nh TLD_NODE_ID 0 0 := by
  have hbridge : ∀ b e : Nat,
      callGetSLDNode (mkTldWorld shards) nh TLD_NODE_ID b e =
        .ok (getSLDNodeContract shards nh.sldHash b e) := fun b e => rfl
  rw [hbridge, hbridge]
  have hp : (fun j => decide (nh.sldHash ∈ (shards.getD j ⟨0, []⟩).hashes)) i =
      true := by simpa using hin
  have huniq2 : ∀ (L : List Nat), ∀ j ∈ L,
      (fun j => decide (nh.sldHash ∈ (shards.getD j ⟨0, []⟩).hashes)) j = true →
      j = i := by
    intro L j _ hj
    by_cases hjl : j < shards.length
    · exact huniq j hjl (by simpa using hj)
    · exfalso
      simp only [decide_eq_true_eq] at hj
      rw [List.getD_eq_default _ _ (Nat.le_of_not_lt hjl)] at hj
      simp at hj
  have hc : getSLDNodeContract shards nh.sldHash beginIdx endIdx =
      getSLDNodeContract shards nh.sldHash 0 0 := by
    unfold getSLDNodeContract shardSearchIdxs
    rw [if_neg (by omega), if_pos ⟨rfl, rfl⟩]
    rw [find_first_of_unique (List.mem_range'_1.mpr ⟨hb, by omega⟩) hp
        (huniq2 _),
      find_first_of_unique (List.mem_range.mpr hlen) hp (huniq2 _)]
  rw [hc]

/-- C8, witness: shard table of two shards, hash held by shard 1 only; the
explicit range `[1, 2)` and the default range `(0, 0)` resolve to the same
SLD node reference (contract 7). -/
theorem claim_C8_witness :
    callGetSLDNode (mkTldWorld c8shards) c8nh TLD_NODE_ID 1 2 =
      callGetSLDNode (mkTldWorld c8shards) c8nh TLD_NODE_ID 0 0 ∧
    callGetSLDNode (mkTldWorld c8shards) c8nh TLD_NODE_ID 0 0 = .ok 7 :=
  ⟨claim_C8 c8shards c8nh 1 1 2 (by decide) (by decide)
      (by
        intro j hj hmem
        have hj2 : j < 2 := hj
        interval_cases j
        · exact absurd hmem (by decide)
        · rfl)
      (by decide) (by decide),
   rfl⟩

/-- C9: `callContractFunc` and `queryContractFunc` never propagate an
exception — for every world (hence every remote outcome, transport failures,
missing records, missing bytes and decode failures included) and every
argument list, both return normally with some value (the decoded outputs or
the catch block's `Error` value). -/
theorem claim_C9 (w : World) (cid : Nat) (abiPath funcName : String)
    (ps : List Param) (gas : Nat) (keys : Option (List Nat)) :
    (∃ v, callContractFunc w cid abiPath funcName ps gas keys = .ok v) ∧
    (∃ v, queryContractFunc w cid abiPath funcName ps gas = .ok v) := by
  constructor
  · rcases hb : callContractFuncBody w cid abiPath funcName ps gas keys with e | vs
    · exact ⟨_, by unfold callContractFunc; rw [hb]; rfl⟩
    · exact ⟨_, by unfold callContractFunc; rw [hb]; rfl⟩
  · rcases hb : queryContractFuncBody w cid abiPath funcName ps gas with e | vs
    · exact ⟨_, by unfold queryContractFunc; rw [hb]; rfl⟩
    · exact ⟨_, by unfold queryContractFunc; rw [hb]; rfl⟩

/-- A string is kept by the `DOMAINS.find(...)` truthiness test exactly when
it is one of the hardcoded TLD strings. -/
theorem domains_find_truthy (d : String) :
    jsTruthyStrOpt (DOMAINS.find? fun y => y == d) = true ↔ d ∈ DOMAINS := by
  constructor
  · intro h
    rcases hf : DOMAINS.find? (fun y => y == d) with _ | y
    · rw [hf] at h
      simp [jsTruthyStrOpt] at h
    · have hy : y = d := by simpa using List.find?_some hf
      exact hy ▸ List.mem_of_find?_eq_some hf
  · intro h
    simp only [DOMAINS] at h
    fin_cases h <;> decide

/-- C10: `getTldTopicMessage` returns exactly the decoded messages whose
`nameHash.domain` is one of the three hardcoded TLD strings `'hbar'`,
`'boo'`, `'cream'`; every message with any other domain value is filtered
out. -/
theorem claim_C10 (messages : List TldMessage) (m : TldMessage) :
    m ∈ getTldTopicMessage messages ↔
      m ∈ messages ∧ m.nameHash.domain ∈ DOMAINS := by
  unfold getTldTopicMessage
  rw [List.mem_filter, domains_find_truthy]

end HNS
